import Mathlib

/-!
Verification development for the mentacare admin backend
(read-path caching, pagination, filtering, enrichment, and the
patient/therapist mutation endpoints).

Each definition is a shallow embedding of a function from the source:
 - `src/middleware/cacheMiddleware.js` (TTL cache, clearCache)
 - `src/controllers/therapistController.js` (both the therapist controller
   and the patient controller concatenated in that file)
 - `src/routes/therapistRoutes.js` (route-level cache TTL arguments)

Timestamps are `Nat` milliseconds (JavaScript `Date.now()`), JS strings
are `String`, JS `undefined` is `Option.none`, document ids are `String`.
-/

/-! ## String helpers (JS `toLowerCase` / `includes`) -/

/-- JS `String.prototype.toLowerCase` (per-character lowering). -/
def lowerS (s : String) : String :=
  String.mk (s.data.map Char.toLower)

/-- Is `pat` a leading segment of `s`? (helper for substring search). -/
def isPrefixB : List Char → List Char → Bool
  | [], _ => true
  | _ :: _, [] => false
  | a :: as, b :: bs => a == b && isPrefixB as bs

/-- Does `s` contain `pat` as a contiguous substring?  Character-list core
of JS `String.prototype.includes`. -/
def containsB (pat : List Char) : List Char → Bool
  | [] => isPrefixB pat []
  | c :: rest => isPrefixB pat (c :: rest) || containsB pat rest

/-- JS `s.includes(pat)`. -/
def hasSubstr (s pat : String) : Bool :=
  containsB pat.data s.data

/-! ## TTL cache (`cacheMiddleware.js` lines 2-37, and the identical
controller-level helpers in `therapistController.js`). -/

/-- One cache entry: `{ data, timestamp }` as stored by the middleware and
by the controllers' `setCachedData` / `getCachedData` helpers. -/
structure CEntry (α : Type) where
  data : α
  timestamp : Nat
deriving DecidableEq, Repr

/-- The cache `Map`, modelled as an association list with unique keys. -/
abbrev CacheMap (α : Type) : Type := List (String × CEntry α)

/-- `cache.get(key)` (raw lookup, no TTL check). -/
def cacheLookup (c : CacheMap α) (k : String) : Option (CEntry α) :=
  (c.find? (fun kv => kv.1 == k)).map (fun kv => kv.2)

/-- `cache.set(key, { data, timestamp: Date.now() })`: unconditional
overwrite of the key's entry. -/
def cacheSet (c : CacheMap α) (k : String) (v : α) (now : Nat) : CacheMap α :=
  (c.filter (fun kv => kv.1 != k)) ++ [(k, ⟨v, now⟩)]

/-- The TTL-checked read: a hit iff the key is present and
`now - timestamp < ttl` (cacheMiddleware.js line 15, and
`getCachedData` in both controllers); otherwise a silent miss. -/
def cacheGet (c : CacheMap α) (k : String) (now ttl : Nat) : Option α :=
  match cacheLookup c k with
  | some e => if now - e.timestamp < ttl then some e.data else none
  | none => none

/-- `clearCache(pattern)` (cacheMiddleware.js lines 31-37 and
therapistController.js lines 825-831): delete every key that
`includes` the pattern. -/
def clearCache (c : CacheMap α) (pat : String) : CacheMap α :=
  c.filter (fun kv => !(hasSubstr kv.1 pat))

/-- Default middleware TTL: `5 * 60 * 1000` ms (cacheMiddleware.js line 3,
same constant in both controllers). -/
def CACHE_TTL : Nat := 5 * 60 * 1000

/-- The ttl argument the therapist list route passes to `cacheMiddleware`:
`cacheMiddleware(300)` with comment "5 minutes cache"
(therapistRoutes.js line 25). -/
def therapistsListRouteTTL : Nat := 300

/-- `cacheMiddleware(600)`, comment "10 minutes cache"
(therapistRoutes.js line 35). -/
def therapistsSummaryRouteTTL : Nat := 600

/-- `cacheMiddleware(1800)`, comment "30 minutes cache"
(therapistRoutes.js line 44). -/
def specializationsRouteTTL : Nat := 1800

/-! ## The three distinct cache maps of the process -/

/-- The process holds three separate module-level `Map`s: the route-level
middleware cache (`cacheMiddleware.js` line 2), the therapist controller's
cache (therapistController.js line 6) and the patient controller's cache
(line 809 of the same file).  Payloads are abstracted to `Nat`. -/
structure AppCaches where
  mwCache : CacheMap Nat
  therapistCache : CacheMap Nat
  patientCache : CacheMap Nat
deriving DecidableEq

/-- Cache effect of every therapist-controller mutation
(`createTherapist`, `updateTherapist`, `deleteTherapist`,
`assignPatientsToTherapist`, `updateTherapistAvailability`,
`batchUpdateTherapists`): `cache.clear()` on the therapist controller's
own map only (e.g. therapistController.js line 453). -/
def therapistMutationCacheEffect (s : AppCaches) : AppCaches :=
  { s with therapistCache := [] }

/-- Cache effect of the single-patient mutations (`updatePatient`,
`deletePatient`, `assignTherapistToPatient`, `flagPatient`,
`uploadPatientDocument`): `clearCache('patient_' + id)` followed by
`clearCache('patients')` on the patient controller's map
(therapistController.js lines 1137-1139 etc.). -/
def patientMutationCacheEffect (pid : String) (s : AppCaches) : AppCaches :=
  { s with patientCache :=
      clearCache (clearCache s.patientCache ("patient_" ++ pid)) "patients" }

/-- Cache effect of `createPatient` (therapistController.js line 873) and
`batchUpdatePatients` (line 1353): only `clearCache('patients')` — keys of
the form `patient_<id>` (the detail entries stored by `getPatientById`)
are NOT removed by these two endpoints. -/
def patientsBroadCacheEffect (s : AppCaches) : AppCaches :=
  { s with patientCache := clearCache s.patientCache "patients" }

/-! ## Therapist list pipeline (`getTherapists`, therapistController.js
lines 49-211).

The `users` collection restricted to `role == 'professional'` and ordered
by `updatedAt` descending is modelled as the input list `docs`
(a stable snapshot in store order). -/

/-- The projection of a therapist document used by `getTherapists`
(`transformTherapistData`). -/
structure Therapist where
  id : String
  uid : String
  name : String
  email : String
  title : String
  specialization : String
  bio : String
  experience : Int
  isVerified : Bool
  isProfileComplete : Bool
deriving DecidableEq, Repr

/-- `if (specialization && specialization !== 'all')
      query.where('specialization', '==', specialization)`
(lines 75-77): as a predicate on a document. -/
def specFilter (s : String) (t : Therapist) : Bool :=
  if s != "" && s != "all" then t.specialization == s else true

/-- `if (isVerified !== '' && isVerified !== 'all')
      query.where('isVerified', '==', isVerified === 'true')` (lines 79-81). -/
def verifiedFilter (v : String) (t : Therapist) : Bool :=
  if v != "" && v != "all" then t.isVerified == (v == "true") else true

/-- `if (isProfileComplete !== '' && isProfileComplete !== 'all')
      query.where('isProfileComplete', '==', ...)` (lines 83-89). -/
def completeFilter (c : String) (t : Therapist) : Bool :=
  if c != "" && c != "all" then t.isProfileComplete == (c == "true") else true

/-- The conjunction of the three store-side equality filters pushed down
to the query. -/
def storePred (s v c : String) (t : Therapist) : Bool :=
  specFilter s t && verifiedFilter v t && completeFilter c t

/-- Client-side keyword predicate (lines 117-127): case-insensitive
containment over name, email, specialization, title, bio. -/
def keywordPred (kw : String) (t : Therapist) : Bool :=
  hasSubstr (lowerS t.name) (lowerS kw) ||
  hasSubstr (lowerS t.email) (lowerS kw) ||
  hasSubstr (lowerS t.specialization) (lowerS kw) ||
  hasSubstr (lowerS t.title) (lowerS kw) ||
  hasSubstr (lowerS t.bio) (lowerS kw)

/-- Client-side experience bucket (the `switch` at lines 131-144;
the `default` arm keeps the record). -/
def expBucket (e : String) (t : Therapist) : Bool :=
  match e with
  | "0-2" => decide (0 ≤ t.experience ∧ t.experience ≤ 2)
  | "3-5" => decide (3 ≤ t.experience ∧ t.experience ≤ 5)
  | "6-10" => decide (6 ≤ t.experience ∧ t.experience ≤ 10)
  | "10+" => decide (10 < t.experience)
  | _ => true

/-- Cursor resolution: `doc(lastDocId).get()` followed by
`query.startAfter(lastDoc)` when the document exists (lines 95-100);
when the cursor names no document the query restarts from the top.
Cursor documents are resolved within the ordered result list, matching
the store's positioning for cursors that satisfy the query's filters. -/
def startAfterBy (getId : α → String) (docs : List α) : Option String → List α
  | none => docs
  | some cid =>
      if docs.any (fun d => getId d == cid) then
        (docs.dropWhile (fun d => getId d != cid)).tail
      else
        docs

/-- The response payload built at lines 184-192 (the per-record
`assignedPatientsCount` annotation is modelled separately by
`patientCounts` below, as it does not change which records appear). -/
structure TherapistsResult where
  therapists : List Therapist
  hasMore : Bool
  lastDocId : Option String
  total : Nat
deriving DecidableEq, Repr

/-- `getTherapists` fetch pipeline (lines 70-192): push-down filters,
order, cursor, `limit(pageSize + 1)`, drop the extra record when
`pageSize + 1` came back (`hasMore`), then the client-side keyword and
experience filters; `lastDocId` is read off `snapshot.docs` after the
`pop()` of the extra record. -/
def getTherapists (docs : List Therapist) (pageSize : Nat)
    (lastDocId : Option String) (keyword sp iv ipc ex : String) :
    TherapistsResult :=
  let filtered := docs.filter (storePred sp iv ipc)
  let window := startAfterBy (fun t => t.id) filtered lastDocId
  let fetched := window.take (pageSize + 1)
  let hasMore := pageSize < fetched.length
  let pageDocs := if pageSize < fetched.length then fetched.take pageSize else fetched
  let afterKw := if keyword != "" then pageDocs.filter (keywordPred keyword) else pageDocs
  let items := if ex != "" && ex != "all" then afterKw.filter (expBucket ex) else afterKw
  { therapists := items,
    hasMore := hasMore,
    lastDocId := (pageDocs.getLast?).map (fun t => t.id),
    total := items.length }

/-! ## Cross-reference enrichment and its batching -/

/-- A `users` document as seen by the patient-count queries and the
assignment endpoints: `assignedTherapist` (new-schema field, keyed by the
therapist's `uid`) and `assigned_therapist` (old-schema field written by
the patient-side endpoint, keyed by the therapist's document id).
`assignedTherapistInfo` is the denormalized display snapshot, abstracted
to the referenced uid. -/
structure UserRec where
  id : String
  role : String
  assignedTherapist : Option String
  assigned_therapist : Option String
  assignedTherapistInfo : Option String
deriving DecidableEq, Repr

/-- The chunking loop `for (let i = 0; i < ids.length; i += 10)
chunks.push(ids.slice(i, i + 10))` (therapistController.js lines 153-156
and 277-280), written with a step counter bounded by the list length
(the `0` arm is unreachable since one step is consumed per ten elements). -/
def chunks10Go (fuel : Nat) (l : List α) : List (List α) :=
  match fuel, l with
  | _, [] => []
  | 0, l => [l]
  | f + 1, l => l.take 10 :: chunks10Go f (l.drop 10)

/-- Partition of the foreign-identifier list into the batches used for
the store's `in` queries in `getTherapists` and `getTherapistsSummary`. -/
def chunks10 (l : List α) : List (List α) :=
  chunks10Go l.length l

/-- One batched lookup: `where('role','==','patient')
.where('assignedTherapist', 'in', chunk)` (lines 159-165). -/
def chunkQueryDocs (patients : List UserRec) (c : List String) : List UserRec :=
  patients.filter (fun p =>
    p.role == "patient" &&
    (match p.assignedTherapist with
     | some u => c.contains u
     | none => false))

/-- `patientCounts[u] = (patientCounts[u] || 0) + 1` on the map. -/
def bumpCount (m : String → Nat) (u : String) : String → Nat :=
  fun k => if k == u then m u + 1 else m k

/-- Folding one batch's documents into the shared `patientCounts` map
(lines 168-174); the `if (assignedTherapist)` truthiness guard skips
empty values. -/
def addCounts (m : String → Nat) (docs : List UserRec) : String → Nat :=
  docs.foldl
    (fun acc p =>
      match p.assignedTherapist with
      | some u => if u != "" then bumpCount acc u else acc
      | none => acc)
    m

/-- The merged identifier-to-count map produced by running every batched
lookup and accumulating into the single `patientCounts` object
(lines 149-176); missing keys read as `0`. -/
def patientCounts (patients : List UserRec) (therapistIds : List String) :
    String → Nat :=
  (chunks10 therapistIds).foldl
    (fun m c => addCounts m (chunkQueryDocs patients c))
    (fun _ => 0)

/-- The batches of the `getPatients` therapist enrichment (lines 955-961):
when any foreign ids are present a SINGLE `in` query is issued with the
whole distinct id list — there is no chunking at 10 on this path. -/
def getPatientsEnrichBatches (ids : List String) : List (List String) :=
  if ids.isEmpty then [] else [ids]

/-! ## Patient list pipeline (`getPatients`, therapistController.js
lines 884-1006). The `users` collection restricted to
`role == 'patient'` ordered by `createdAt` descending is the input list. -/

/-- The fields of a patient document that the list pipeline inspects. -/
structure PatientRec where
  id : String
  name : String
  email : String
  isProfileComplete : Bool
  assigned_therapist : Option String
deriving DecidableEq, Repr

/-- Store-side filters of `getPatients` (lines 900-906):
`profileComplete` is applied whenever it is defined and non-empty and
compares against `profileComplete === 'true'`; `therapistId` is applied
when truthy. -/
def patientStorePred (pc tid : Option String) (p : PatientRec) : Bool :=
  (match pc with
   | some s => if s != "" then p.isProfileComplete == (s == "true") else true
   | none => true) &&
  (match tid with
   | some t => if t != "" then p.assigned_therapist == some t else true
   | none => true)

/-- Client-side keyword predicate of `getPatients` (lines 986-993):
lower-cased containment over name and email. -/
def patientKeywordPred (kw : String) (p : PatientRec) : Bool :=
  hasSubstr (lowerS p.name) (lowerS kw) || hasSubstr (lowerS p.email) (lowerS kw)

/-- Response payload of `getPatients` (lines 995-1001). -/
structure PatientsResult where
  patients : List PatientRec
  hasMore : Bool
  lastDocId : Option String
  total : Nat
deriving DecidableEq, Repr

/-- The `getPatients` fetch pipeline (lines 896-1001): store filters,
cursor, `limit(pageSize + 1)` with the extra record popped when present,
then the client-side keyword filter; `lastDocId` is the id of the last
element of `patientData` (the page BEFORE keyword filtering) and `total`
the post-filter length.  The therapist-info attachment (lines 953-982)
only annotates records and is modelled by `getPatientsEnrichBatches`. -/
def getPatients (docs : List PatientRec) (pageSize : Nat)
    (lastDocId : Option String) (keyword : String)
    (profileComplete therapistId : Option String) : PatientsResult :=
  let filtered := docs.filter (patientStorePred profileComplete therapistId)
  let window := startAfterBy (fun p => p.id) filtered lastDocId
  let fetched := window.take (pageSize + 1)
  let hasMore := pageSize < fetched.length
  let pageDocs := if pageSize < fetched.length then fetched.take pageSize else fetched
  let items := if keyword != "" then pageDocs.filter (patientKeywordPred keyword) else pageDocs
  { patients := items,
    hasMore := hasMore,
    lastDocId := (pageDocs.getLast?).map (fun p => p.id),
    total := items.length }

/-! ## Assignment endpoints -/

/-- Per-document effect of the `assignPatientsToTherapist` batch
(therapistController.js lines 594-635): documents matching
`role == 'patient' && assignedTherapist == tUid` get the field (and the
denormalized snapshot) deleted; afterwards every document whose id is in
`patientIds` gets `assignedTherapist = tUid` and a fresh snapshot.
The old-schema `assigned_therapist` field is never touched. -/
def assignStep (tUid : String) (patientIds : List String) (p : UserRec) :
    UserRec :=
  let p1 :=
    if p.role == "patient" && p.assignedTherapist == some tUid then
      { p with assignedTherapist := none, assignedTherapistInfo := none }
    else p
  if patientIds.contains p1.id then
    { p1 with assignedTherapist := some tUid, assignedTherapistInfo := some tUid }
  else p1

/-- The whole-store effect of a successful `assignPatientsToTherapist`
batch commit for the therapist with uid `tUid`. -/
def assignPatientsToTherapist (store : List UserRec) (tUid : String)
    (patientIds : List String) : List UserRec :=
  store.map (assignStep tUid patientIds)

/-- The patient-side `assignTherapistToPatient` endpoint
(therapistController.js lines 1173-1214): inside a transaction it sets
`assigned_therapist = therapistId` (the therapist's DOCUMENT id, on the
old-schema field) on the named patient. -/
def assignTherapistToPatient (store : List UserRec) (pid tid : String) :
    List UserRec :=
  store.map (fun p =>
    if p.id == pid && p.role == "patient" then
      { p with assigned_therapist := some tid }
    else p)

/-! ## `flagPatient` (therapistController.js lines 1219-1251) -/

/-- Effect of one `flagPatient` call on the STORED flags list:
`if (!currentFlags.includes(flag)) update({ flags: [...currentFlags, flag] })`. -/
def flagPatientFlags (flags : List String) (flag : String) : List String :=
  if flag ∈ flags then flags else flags ++ [flag]

/-! ## `updatePatient` (therapistController.js lines 1075-1142) -/

/-- The stored patient document as read inside the update transaction.
`updatedAt` is a millisecond timestamp. -/
structure PatientDocF where
  name : String
  email : String
  age : Option Int
  gender : Option String
  concerns : Option String
  emergencyContact : Option String
  assigned_therapist : Option String
  flags : List String
  documents : List String
  updatedAt : Nat
deriving DecidableEq, Repr

/-- The request body: `none` is JS `undefined` (field absent); for the
nullable fields the inner `Option` is the supplied value (JSON null is
the inner `none`). -/
structure UpdateBody where
  name : Option String := none
  email : Option String := none
  age : Option (Option Int) := none
  gender : Option (Option String) := none
  concerns : Option (Option String) := none
  emergencyContact : Option (Option String) := none
  assigned_therapist : Option (Option String) := none
  flags : Option (List String) := none
  documents : Option (List String) := none
deriving DecidableEq, Repr

/-- Does the transaction issue a write?  A compared field contributes iff
it is supplied and differs from the stored value (lines 1102-1114); the
admin-only fields contribute whenever supplied, with no comparison
(lines 1117-1120); the write happens iff `updateData` holds more than
the always-present `updatedAt` (line 1123). -/
def updateIssued (d : PatientDocF) (b : UpdateBody) : Bool :=
  (match b.name with | some v => v != d.name | none => false) ||
  (match b.email with | some v => v != d.email | none => false) ||
  (match b.age with | some v => v != d.age | none => false) ||
  (match b.gender with | some v => v != d.gender | none => false) ||
  (match b.concerns with | some v => v != d.concerns | none => false) ||
  (match b.emergencyContact with | some v => v != d.emergencyContact | none => false) ||
  b.assigned_therapist.isSome || b.flags.isSome || b.documents.isSome

/-- Merging the supplied fields over the stored document (the effect of
`transaction.update(patientRef, updateData)` on the domain fields). -/
def applyBody (d : PatientDocF) (b : UpdateBody) : PatientDocF :=
  { d with
    name := b.name.getD d.name,
    email := b.email.getD d.email,
    age := b.age.getD d.age,
    gender := b.gender.getD d.gender,
    concerns := b.concerns.getD d.concerns,
    emergencyContact := b.emergencyContact.getD d.emergencyContact,
    assigned_therapist := b.assigned_therapist.getD d.assigned_therapist,
    flags := b.flags.getD d.flags,
    documents := b.documents.getD d.documents }

/-- `updatePatient`: first component is the persisted document after the
transaction (written only when a change beyond `updatedAt` was collected),
second component is the `updatedAt` / `updated_at` value reported in the
HTTP response body, which is always the freshly computed timestamp
(`resultData = { ...currentData, ...updateData }`, line 1129). -/
def updatePatient (d : PatientDocF) (b : UpdateBody) (now : Nat) :
    PatientDocF × Nat :=
  let stored := if updateIssued d b then { applyBody d b with updatedAt := now } else d
  (stored, now)

/-! ## Helper lemmas -/

theorem mem_clearCache {c : CacheMap α} {pat k : String} {e : CEntry α} :
    (k, e) ∈ clearCache c pat ↔ ((k, e) ∈ c ∧ hasSubstr k pat = false) := by
  unfold clearCache
  rw [List.mem_filter]
  simp

theorem cacheGet_cacheSet (c : CacheMap α) (k : String) (v : α) (now t ttl : Nat) :
    cacheGet (cacheSet c k v now) k t ttl
      = if t - now < ttl then some v else none := by
  unfold cacheGet cacheLookup cacheSet
  rw [List.find?_append]
  have h1 : (c.filter (fun kv => kv.1 != k)).find? (fun kv => kv.1 == k) = none := by
    apply List.find?_eq_none.mpr
    intro x hx
    have := (List.mem_filter.mp hx).2
    simp only [bne_iff_ne, ne_eq] at this
    simp [this]
  rw [h1]
  simp [List.find?]

theorem overfetch_core (w : List α) (ps : Nat) :
    decide (ps < (w.take (ps + 1)).length) = decide (ps < w.length) ∧
    (if ps < (w.take (ps + 1)).length then (w.take (ps + 1)).take ps
     else w.take (ps + 1)) = w.take ps := by
  constructor
  · apply decide_eq_decide.mpr
    rw [List.length_take]
    omega
  · by_cases h : ps < (w.take (ps + 1)).length
    · rw [if_pos h, List.take_take]
      congr 1
      omega
    · rw [if_neg h]
      rw [List.length_take] at h
      have hlen : w.length ≤ ps := by omega
      rw [List.take_of_length_le (Nat.le_trans hlen (Nat.le_succ ps)),
        List.take_of_length_le hlen]

theorem chunks10Go_join (fuel : Nat) (l : List α) (h : l.length ≤ fuel) :
    (chunks10Go fuel l).flatten = l := by
  induction fuel generalizing l with
  | zero =>
      have : l = [] := List.eq_nil_of_length_eq_zero (Nat.le_zero.mp h)
      subst this
      rfl
  | succ f ih =>
      cases l with
      | nil => rfl
      | cons x xs =>
          show ((x :: xs).take 10 :: chunks10Go f ((x :: xs).drop 10)).flatten = x :: xs
          rw [List.flatten_cons,
            ih ((x :: xs).drop 10)
              (by simp only [List.length_drop, List.length_cons] at h ⊢; omega),
            List.take_append_drop]

theorem chunks10Go_mem_length (fuel : Nat) (l : List α) (c : List α)
    (h : l.length ≤ fuel) (hc : c ∈ chunks10Go fuel l) : c.length ≤ 10 := by
  induction fuel generalizing l with
  | zero =>
      have : l = [] := List.eq_nil_of_length_eq_zero (Nat.le_zero.mp h)
      subst this
      simp [chunks10Go] at hc
  | succ f ih =>
      cases l with
      | nil => simp [chunks10Go] at hc
      | cons x xs =>
          have hc' : c ∈ (x :: xs).take 10 :: chunks10Go f ((x :: xs).drop 10) := hc
          rcases List.mem_cons.mp hc' with h1 | h2
          · subst h1
            simp [List.length_take]
          · exact ih ((x :: xs).drop 10)
              (by simp only [List.length_drop, List.length_cons] at h ⊢; omega) h2

theorem chunks10_join (l : List α) : (chunks10 l).flatten = l :=
  chunks10Go_join l.length l (Nat.le_refl _)

theorem chunks10_mem_length (l : List α) (c : List α) (hc : c ∈ chunks10 l) :
    c.length ≤ 10 :=
  chunks10Go_mem_length l.length l c (Nat.le_refl _) hc

theorem addCounts_apply (docs : List UserRec) (m : String → Nat) (uid : String)
    (hu : uid ≠ "") :
    addCounts m docs uid
      = m uid + docs.countP (fun p => p.assignedTherapist == some uid) := by
  induction docs generalizing m with
  | nil => simp [addCounts]
  | cons p ds ih =>
      show addCounts
        (match p.assignedTherapist with
         | some u => if u != "" then bumpCount m u else m
         | none => m) ds uid = _
      rw [ih]
      rw [List.countP_cons]
      cases hp : p.assignedTherapist with
      | none => simp
      | some u =>
          by_cases huu : u = ""
          · subst huu
            simp [Option.some.injEq, hu, fun h : "" = uid => hu h.symm]
            intro h
            exact absurd h.symm hu
          · have : (u != "") = true := by simp [huu]
            simp only [this, if_true]
            by_cases heq : uid = u
            · subst heq
              simp [bumpCount]
              omega
            · simp [bumpCount, heq, fun h : u = uid => heq h.symm]
              intro h
              exact absurd h.symm heq

theorem chunkQueryDocs_countP (patients : List UserRec) (c : List String)
    (uid : String) :
    (chunkQueryDocs patients c).countP
        (fun p => p.assignedTherapist == some uid)
      = if uid ∈ c then
          patients.countP
            (fun p => p.role == "patient" && p.assignedTherapist == some uid)
        else 0 := by
  unfold chunkQueryDocs
  rw [List.countP_filter]
  by_cases hmem : uid ∈ c
  · rw [if_pos hmem]
    apply List.countP_congr
    intro p _
    cases hp : p.assignedTherapist with
    | none => simp [hp]
    | some u =>
        by_cases hu : u = uid
        · subst hu
          simp [hp, hmem]
        · simp [hp, hu, fun h : uid = u => hu h.symm]
  · rw [if_neg hmem]
    rw [List.countP_eq_zero]
    intro p _
    cases hp : p.assignedTherapist with
    | none => simp [hp]
    | some u =>
        by_cases hu : u = uid
        · subst hu
          simp [hp, hmem]
        · simp [hp, hu, fun h : uid = u => hu h.symm]

theorem countsFold_apply (chunks : List (List String)) (patients : List UserRec)
    (m : String → Nat) (uid : String) (hu : uid ≠ "") :
    (chunks.foldl (fun m c => addCounts m (chunkQueryDocs patients c)) m) uid
      = m uid +
        (chunks.map (fun c =>
          (chunkQueryDocs patients c).countP
            (fun p => p.assignedTherapist == some uid))).sum := by
  induction chunks generalizing m with
  | nil => simp
  | cons c cs ih =>
      rw [List.foldl_cons, ih, List.map_cons, List.sum_cons,
        addCounts_apply _ _ _ hu]
      omega

theorem sum_if_mem_zero (chunks : List (List String)) (uid : String) (K : Nat)
    (h : uid ∉ chunks.flatten) :
    (chunks.map (fun c => if uid ∈ c then K else 0)).sum = 0 := by
  induction chunks with
  | nil => rfl
  | cons c cs ih =>
      rw [List.flatten_cons] at h
      rw [List.map_cons, List.sum_cons,
        if_neg (fun hc => h (List.mem_append.mpr (Or.inl hc))),
        ih (fun hc => h (List.mem_append.mpr (Or.inr hc)))]

theorem sum_if_mem_once (chunks : List (List String)) (uid : String) (K : Nat)
    (hnd : chunks.flatten.Nodup) (hmem : uid ∈ chunks.flatten) :
    (chunks.map (fun c => if uid ∈ c then K else 0)).sum = K := by
  induction chunks with
  | nil => simp at hmem
  | cons c cs ih =>
      rw [List.flatten_cons] at hnd hmem
      have hparts := List.nodup_append.mp hnd
      rw [List.map_cons, List.sum_cons]
      rcases List.mem_append.mp hmem with h1 | h2
      · rw [if_pos h1, sum_if_mem_zero cs uid K (hparts.2.2 h1)]
        omega
      · rw [if_neg (fun hc => (hparts.2.2 hc) h2), ih hparts.2.1 h2]
        omega

theorem patientCounts_correct (patients : List UserRec) (ids : List String)
    (uid : String) (hnd : ids.Nodup) (hmem : uid ∈ ids) (hu : uid ≠ "") :
    patientCounts patients ids uid
      = (patients.filter
          (fun p => p.role == "patient" && p.assignedTherapist == some uid)).length := by
  unfold patientCounts
  rw [countsFold_apply _ _ _ _ hu]
  have hjoin : (chunks10 ids).flatten = ids := chunks10_join ids
  have hcongr :
      (chunks10 ids).map (fun c =>
        (chunkQueryDocs patients c).countP
          (fun p => p.assignedTherapist == some uid))
        = (chunks10 ids).map (fun c =>
            if uid ∈ c then
              patients.countP
                (fun p => p.role == "patient" && p.assignedTherapist == some uid)
            else 0) :=
    List.map_congr_left (fun c _ => chunkQueryDocs_countP patients c uid)
  have hnd' : (chunks10 ids).flatten.Nodup := by rw [hjoin]; exact hnd
  have hmem' : uid ∈ (chunks10 ids).flatten := by rw [hjoin]; exact hmem
  rw [hcongr, sum_if_mem_once (chunks10 ids) uid _ hnd' hmem',
    List.countP_eq_length_filter]
  omega

/-! ## Concrete instances used in scenario parts, counterexamples and
witnesses -/

/-- Twenty-five distinct foreign identifiers (therapist uids). -/
def ids25 : List String := (List.range 25).map (fun n => "t" ++ toString n)

/-- A therapist document with the given id (= uid), neutral elsewhere. -/
def mkTherapist (i : String) : Therapist :=
  ⟨i, i, "", "", "", "", "", 0, false, false⟩

/-- Eleven professional documents in store order (`updatedAt` descending). -/
def docs11 : List Therapist := (List.range 11).map (fun n => mkTherapist ("t" ++ toString n))

/-- Therapist whose name matches the keyword "ali". -/
def tAlice : Therapist := ⟨"d1", "u1", "alice", "a@x", "", "therapy", "", 0, false, false⟩

/-- Therapist matching no field of the keyword "ali". -/
def tBob : Therapist := ⟨"d2", "u2", "bob", "b@x", "", "therapy", "", 0, false, false⟩

/-- A patient document with a complete profile. -/
def pAnn : PatientRec := ⟨"p1", "ann", "a@x", true, none⟩

/-- Two patient documents with no assignment in either schema field. -/
def cexStore0 : List UserRec :=
  [⟨"p1", "patient", none, none, none⟩, ⟨"p2", "patient", none, none, none⟩]

/-- Patients for the enrichment-count witness: two assigned to u1, one to
u2, and a non-patient document also carrying u1. -/
def patsWit : List UserRec :=
  [⟨"p1", "patient", some "u1", none, none⟩,
   ⟨"p2", "patient", some "u1", none, none⟩,
   ⟨"p3", "patient", some "u2", none, none⟩,
   ⟨"p4", "professional", some "u1", none, none⟩]

/-- Cache state before a therapist mutation: the route-level middleware
map holds a cached list page (payload 42) stored at t = 1000 ms. -/
def cachesBefore : AppCaches :=
  ⟨[("/api/therapists_q", ⟨42, 1000⟩)], [("therapists_q1", ⟨7, 1000⟩)], []⟩

/-- A patient document with the given id, neutral elsewhere. -/
def mkPatient (i : String) : PatientRec := ⟨i, "", "", false, none⟩

/-- Eleven patient documents in store order (`createdAt` descending). -/
def pats11 : List PatientRec := (List.range 11).map (fun n => mkPatient ("p" ++ toString n))

/-- Patient whose name matches the keyword "an". -/
def pAnnQ : PatientRec := ⟨"q1", "ann", "a@x", false, none⟩

/-- Patient matching no field of the keyword "an". -/
def pBobQ : PatientRec := ⟨"q2", "bob", "b@x", false, none⟩

/-- Patient-controller cache state before a patient batch update: a
detail entry for patient p1 (payload 9) and a list page (payload 8),
both stored at t = 1000 ms. -/
def patientCachesBefore : AppCaches :=
  ⟨[], [], [("patient_p1", ⟨9, 1000⟩), ("patients_page1", ⟨8, 1000⟩)]⟩

/-- A stored patient document (updatedAt = 5). -/
def d0 : PatientDocF :=
  ⟨"ann", "a@x", none, none, none, none, none, [], [], 5⟩

/-- A request body resupplying the stored name unchanged. -/
def bodySame : UpdateBody := { name := some "ann" }

/-- A stored patient document whose flags list is ["f1"]. -/
def dFlagged : PatientDocF :=
  ⟨"ann", "a@x", none, none, none, none, none, ["f1"], [], 5⟩

/-- A request body resupplying exactly the stored flags value. -/
def bFlagsSame : UpdateBody := { flags := some ["f1"] }

/-! ## Claims -/

/-- C1, counterexample: the claim says every list request that enriches
through a foreign-reference batch lookup partitions the identifiers into
batches of at most 10.  The `getPatients` enrichment (therapistController.js
lines 953-971) issues a SINGLE `in` query with the whole distinct id set:
for 25 distinct identifiers it issues 1 lookup whose batch has 25 > 10
identifiers, not 3 batched lookups. -/
theorem getPatients_batch_unchunked_cex :
    ids25.Nodup ∧ ids25.length = 25 ∧
    getPatientsEnrichBatches ids25 = [ids25] ∧
    ∃ b, b ∈ getPatientsEnrichBatches ids25 ∧ 10 < b.length := by
  refine ⟨by decide, by decide, rfl, ids25, ?_, by decide⟩
  rw [show getPatientsEnrichBatches ids25 = [ids25] from rfl]
  exact List.mem_singleton.mpr rfl

/-- C1, amended: in `getTherapists` (and `getTherapistsSummary`) the
foreign identifiers are partitioned by `chunks10` into batches of at most
10 whose concatenation is the identifier list, with exactly 3 batches for
25 identifiers, and the per-batch results are merged into the single
`patientCounts` mapping, which for every distinct, truthy identifier in
the list equals the store-wide count of patient documents referencing it;
the `getPatients` enrichment instead issues one unchunked `in` query with
all distinct identifiers. -/
theorem enricher_batching_amended (ids : List String) (patients : List UserRec)
    (uid : String) (c : List String) :
    (c ∈ chunks10 ids → c.length ≤ 10) ∧
    (chunks10 ids).flatten = ids ∧
    (ids.Nodup → uid ∈ ids → uid ≠ "" →
      patientCounts patients ids uid
        = (patients.filter
            (fun p => p.role == "patient" && p.assignedTherapist == some uid)).length) ∧
    (chunks10 ids25).length = 3 := by
  refine ⟨chunks10_mem_length ids c, chunks10_join ids, ?_, by decide⟩
  intro hnd hmem hu
  exact patientCounts_correct patients ids uid hnd hmem hu

/-- C1, witness for `enricher_batching_amended` at a concrete input. -/
theorem enricher_batching_amended_witness :
    ((["u1", "u2"].Nodup ∧ "u1" ∈ ["u1", "u2"] ∧ "u1" ≠ "") ∧
      ["u1", "u2"] ∈ chunks10 ["u1", "u2"]) ∧
    (["u1", "u2"] : List String).length ≤ 10 ∧
    patientCounts patsWit ["u1", "u2"] "u1" = 2 := by
  have h := enricher_batching_amended ["u1", "u2"] patsWit "u1" ["u1", "u2"]
  refine ⟨⟨⟨by decide, by decide, by decide⟩, by decide⟩, h.1 (by decide), ?_⟩
  rw [h.2.2.1 (by decide) (by decide) (by decide)]
  decide

/-- C2, counterexample: assign therapist (doc id "Tdoc", uid "uT") to
patient p1 through the patient-side endpoint, then run
`assignPatientsToTherapist` for that therapist with the new set ["p2"].
The clear phase queries `assignedTherapist == "uT"` only, so p1 — which
references the therapist through the old-schema `assigned_therapist`
field written by the patient-side endpoint — still references the
therapist although "p1" is not in the new set. -/
theorem assignPatients_cross_endpoint_cex :
    ("p1" ∉ (["p2"] : List String)) ∧
    assignPatientsToTherapist
        (assignTherapistToPatient cexStore0 "p1" "Tdoc") "uT" ["p2"]
      = [⟨"p1", "patient", none, some "Tdoc", none⟩,
         ⟨"p2", "patient", some "uT", none, some "uT"⟩] ∧
    ((assignPatientsToTherapist
        (assignTherapistToPatient cexStore0 "p1" "Tdoc") "uT" ["p2"]).head?).map
        (fun p => p.assigned_therapist)
      = some (some "Tdoc") := by
  refine ⟨by decide, by decide, by decide⟩

/-- C2, amended: after `assignPatientsToTherapist(T, patientIds)` the
postcondition holds for the new-schema `assignedTherapist` field keyed by
T's uid — every previously assigned patient (found by that field) is
cleared, exactly the documents in `patientIds` end up with
`assignedTherapist = T.uid` — but assignments written by the patient-side
`assignTherapistToPatient` endpoint live in the separate
`assigned_therapist` field (keyed by T's document id), which the batch
never reads or clears, so such records can still reference T. -/
theorem assignPatients_postcondition_amended (store : List UserRec)
    (tUid : String) (pids : List String) (p : UserRec)
    (hrole : p.role = "patient") :
    assignPatientsToTherapist store tUid pids = store.map (assignStep tUid pids) ∧
    ((assignStep tUid pids p).assignedTherapist = some tUid ↔ p.id ∈ pids) ∧
    (p.assignedTherapist = some tUid → p.id ∉ pids →
      (assignStep tUid pids p).assignedTherapist = none) ∧
    (assignStep tUid pids p).assigned_therapist = p.assigned_therapist := by
  refine ⟨rfl, ?_, ?_, ?_⟩
  · by_cases hmem : p.id ∈ pids <;>
      by_cases hasg : p.assignedTherapist = some tUid <;>
        simp [assignStep, hrole, hmem, hasg]
  · intro hasg hmem
    simp [assignStep, hrole, hasg, hmem]
  · by_cases hasg : p.assignedTherapist = some tUid <;>
      by_cases hmem : p.id ∈ pids <;>
        simp [assignStep, hrole, hasg, hmem]

/-- C2, witness for `assignPatients_postcondition_amended`. -/
theorem assignPatients_postcondition_amended_witness :
    ((⟨"p2", "patient", none, none, none⟩ : UserRec).role = "patient") ∧
    ((assignStep "uT" ["p2"] ⟨"p2", "patient", none, none, none⟩).assignedTherapist
        = some "uT" ↔ ("p2" : String) ∈ ["p2"]) ∧
    (assignStep "uT" ["p2"] ⟨"p2", "patient", none, none, none⟩).assigned_therapist
      = (⟨"p2", "patient", none, none, none⟩ : UserRec).assigned_therapist := by
  have h := assignPatients_postcondition_amended cexStore0 "uT" ["p2"]
    ⟨"p2", "patient", none, none, none⟩ (by decide)
  exact ⟨by decide, h.2.1, h.2.2.2⟩

/-- C3, confirmed: every paginated list fetch with page size k asks the
store for `k + 1` records (the `limit(pageSize + 1)` in `getTherapists`,
line 102, and in `getPatients`, line 919); when `k + 1` come back the
extra last record is dropped and `hasMore = true`, otherwise
`hasMore = false` — equivalently, for both endpoints the returned items
are the first k records of the post-cursor window and `hasMore` holds
exactly when that window is longer than k.  Concretely, for 11 matching
records and page size 10, both endpoints return 10 items with
`hasMore = true` on the first call and 1 item with `hasMore = false` on
the second call made with the returned cursor. -/
theorem pagination_overfetch_confirmed :
    (∀ (docs : List Therapist) (ps : Nat) (cur : Option String),
      (getTherapists docs ps cur "" "" "" "" "").hasMore
          = decide (ps < (startAfterBy (fun t => t.id) docs cur).length) ∧
      (getTherapists docs ps cur "" "" "" "" "").therapists
          = (startAfterBy (fun t => t.id) docs cur).take ps) ∧
    (∀ (pats : List PatientRec) (ps : Nat) (cur : Option String),
      (getPatients pats ps cur "" none none).hasMore
          = decide (ps < (startAfterBy (fun p => p.id) pats cur).length) ∧
      (getPatients pats ps cur "" none none).patients
          = (startAfterBy (fun p => p.id) pats cur).take ps) ∧
    ((getTherapists docs11 10 none "" "" "" "" "").therapists.length = 10 ∧
     (getTherapists docs11 10 none "" "" "" "" "").hasMore = true ∧
     (getTherapists docs11 10
        (getTherapists docs11 10 none "" "" "" "" "").lastDocId
        "" "" "" "" "").therapists.length = 1 ∧
     (getTherapists docs11 10
        (getTherapists docs11 10 none "" "" "" "" "").lastDocId
        "" "" "" "" "").hasMore = false) ∧
    ((getPatients pats11 10 none "" none none).patients.length = 10 ∧
     (getPatients pats11 10 none "" none none).hasMore = true ∧
     (getPatients pats11 10
        (getPatients pats11 10 none "" none none).lastDocId
        "" none none).patients.length = 1 ∧
     (getPatients pats11 10
        (getPatients pats11 10 none "" none none).lastDocId
        "" none none).hasMore = false) := by
  refine ⟨?_, ?_, ⟨by decide, by decide, by decide, by decide⟩,
    ⟨by decide, by decide, by decide, by decide⟩⟩
  · intro docs ps cur
    have hfil : docs.filter (storePred "" "" "") = docs := by
      rw [show storePred "" "" "" = fun _ => true from rfl, List.filter_true]
    constructor
    · show decide
        (ps < ((startAfterBy (fun t => t.id) (docs.filter (storePred "" "" "")) cur).take
          (ps + 1)).length) = _
      rw [hfil]
      exact (overfetch_core _ ps).1
    · show (if ps < ((startAfterBy (fun t => t.id) (docs.filter (storePred "" "" "")) cur).take
          (ps + 1)).length
        then (startAfterBy (fun t => t.id) (docs.filter (storePred "" "" "")) cur).take
          (ps + 1) |>.take ps
        else (startAfterBy (fun t => t.id) (docs.filter (storePred "" "" "")) cur).take
          (ps + 1)) = _
      rw [hfil]
      exact (overfetch_core _ ps).2
  · intro pats ps cur
    have hfil : pats.filter (patientStorePred none none) = pats := by
      rw [show patientStorePred none none = fun _ => true from rfl, List.filter_true]
    constructor
    · show decide
        (ps < ((startAfterBy (fun p => p.id) (pats.filter (patientStorePred none none)) cur).take
          (ps + 1)).length) = _
      rw [hfil]
      exact (overfetch_core _ ps).1
    · show (if ps < ((startAfterBy (fun p => p.id) (pats.filter (patientStorePred none none)) cur).take
          (ps + 1)).length
        then (startAfterBy (fun p => p.id) (pats.filter (patientStorePred none none)) cur).take
          (ps + 1) |>.take ps
        else (startAfterBy (fun p => p.id) (pats.filter (patientStorePred none none)) cur).take
          (ps + 1)) = _
      rw [hfil]
      exact (overfetch_core _ ps).2

/-- C4, code bug: the get/set semantics themselves are as claimed — a
read after a write hits iff the elapsed time is strictly below the ttl
argument, and otherwise misses silently — but the route-level TTLs are
not the documented 5/10/30 minutes.  `cacheMiddleware` compares the ttl
argument against elapsed MILLISECONDS, and the routes pass `300`, `600`
and `1800` (comments "5 minutes cache" etc.), so a therapist-list entry
only 1 second old (1000 ms, far below the documented 5 minutes =
`CACHE_TTL` = 300000 ms) is already treated as expired. -/
theorem route_cache_ttl_code_bug :
    (∀ (c : CacheMap Nat) (k : String) (v : Nat) (now t ttl : Nat),
      cacheGet (cacheSet c k v now) k t ttl
        = if t - now < ttl then some v else none) ∧
    cacheGet (cacheSet [] "/api/therapists_q" 42 1000000) "/api/therapists_q"
        1001000 therapistsListRouteTTL = none ∧
    1001000 - 1000000 < CACHE_TTL := by
  exact ⟨fun c k v now t ttl => cacheGet_cacheSet c k v now t ttl, by decide, by decide⟩

/-- C5, counterexample: the claim says supplying "all" for any of the
recognized filters — profileComplete and keyword included — is a no-op.
Both halves fail.  `getPatients` applies any non-empty `profileComplete`
as `isProfileComplete == (value === 'true')` (lines 900-902), so "all"
filters for INCOMPLETE profiles: a store holding one complete-profile
patient yields an empty page under `profileComplete = "all"` but returns
the patient when the parameter is omitted.  And `getTherapists` has no
"all" special case for `keyword` (line 117): `keyword = "all"` is
applied as a literal substring search, dropping a therapist none of
whose text fields contain "all", while the empty keyword keeps it. -/
theorem all_value_filters_cex :
    (getPatients [pAnn] 10 none "" (some "all") none).patients = [] ∧
    (getPatients [pAnn] 10 none "" none none).patients = [pAnn] ∧
    (getPatients [pAnn] 10 none "" (some "all") none).patients
      ≠ (getPatients [pAnn] 10 none "" none none).patients ∧
    (getTherapists [tBob] 5 none "all" "" "" "" "").therapists = [] ∧
    (getTherapists [tBob] 5 none "" "" "" "" "").therapists = [tBob] ∧
    (getTherapists [tBob] 5 none "all" "" "" "" "").therapists
      ≠ (getTherapists [tBob] 5 none "" "" "" "" "").therapists := by
  refine ⟨by decide, by decide, by decide, by decide, by decide, by decide⟩

/-- C5, amended: supplying "all" (or the empty string, or omitting the
parameter) is a no-op for the `getTherapists` filters `specialization`,
`isVerified`, `isProfileComplete` and `experience`, and omitting or
supplying the empty string is a no-op for `getPatients`'s
`profileComplete` (and for `keyword`, whose filter runs only when the
keyword is non-empty); but the value "all" is NOT a no-op for the other
two recognized filters: `getPatients` applies `profileComplete = "all"`
as `profileComplete = false`, and `keyword = "all"` is applied as a
literal substring search — both shown by the counterexample. -/
theorem filter_noop_amended (docs : List Therapist) (pats : List PatientRec)
    (ps : Nat) (cur : Option String) (kw iv ipc ex sp : String)
    (tid : Option String) :
    getTherapists docs ps cur kw "all" iv ipc ex
        = getTherapists docs ps cur kw "" iv ipc ex ∧
    getTherapists docs ps cur kw sp "all" ipc ex
        = getTherapists docs ps cur kw sp "" ipc ex ∧
    getTherapists docs ps cur kw sp iv "all" ex
        = getTherapists docs ps cur kw sp iv "" ex ∧
    getTherapists docs ps cur kw sp iv ipc "all"
        = getTherapists docs ps cur kw sp iv ipc "" ∧
    getPatients pats ps cur kw (some "") tid
        = getPatients pats ps cur kw none tid := by
  exact ⟨rfl, rfl, rfl, rfl, rfl⟩

/-- C6, counterexample: in both list fetches the keyword filter can drop
the final record of the page, after which the returned cursor is the id
of the last STORE-page record, not the id of the last item actually
included in the response — contradicting the claim's "including when
client-side keyword or bucket filtering has removed records".  For
`getTherapists` with keyword "ali" over the page [alice, bob] the cursor
is "d2" while the last returned item is "d1"; for `getPatients` with
keyword "an" over the page [ann, bob] the cursor is "q2" while the last
returned item is "q1". -/
theorem lastDocId_after_keyword_filter_cex :
    (getTherapists [tAlice, tBob] 5 none "ali" "" "" "" "").lastDocId = some "d2" ∧
    ((getTherapists [tAlice, tBob] 5 none "ali" "" "" "" "").therapists.getLast?).map
        (fun t => t.id) = some "d1" ∧
    (getTherapists [tAlice, tBob] 5 none "ali" "" "" "" "").lastDocId
      ≠ ((getTherapists [tAlice, tBob] 5 none "ali" "" "" "" "").therapists.getLast?).map
          (fun t => t.id) ∧
    (getPatients [pAnnQ, pBobQ] 5 none "an" none none).lastDocId = some "q2" ∧
    ((getPatients [pAnnQ, pBobQ] 5 none "an" none none).patients.getLast?).map
        (fun p => p.id) = some "q1" ∧
    (getPatients [pAnnQ, pBobQ] 5 none "an" none none).lastDocId
      ≠ ((getPatients [pAnnQ, pBobQ] 5 none "an" none none).patients.getLast?).map
          (fun p => p.id) := by
  refine ⟨by decide, by decide, by decide, by decide, by decide, by decide⟩

/-- C6, amended: in both list fetches the returned cursor is the
identifier of the last record of the store-level page after the
over-fetched extra record is dropped; whenever no client-side keyword or
bucket filter is in effect this coincides with the identifier of the
last item actually included in the response — for `getTherapists` with
an empty keyword and no experience bucket, and for `getPatients` with an
empty keyword, under arbitrary store-side filters. -/
theorem lastDocId_store_page_amended (docs : List Therapist)
    (pats : List PatientRec) (ps : Nat) (cur : Option String)
    (sp iv ipc : String) (pc tid : Option String) :
    ((getTherapists docs ps cur "" sp iv ipc "").lastDocId
      = ((getTherapists docs ps cur "" sp iv ipc "").therapists.getLast?).map
          (fun t => t.id)) ∧
    ((getPatients pats ps cur "" pc tid).lastDocId
      = ((getPatients pats ps cur "" pc tid).patients.getLast?).map
          (fun p => p.id)) :=
  ⟨rfl, rfl⟩

/-- C7, confirmed: `clearCache(pattern)` removes exactly the keys
containing the pattern as a substring — an entry (key, value+timestamp)
survives the invalidation iff it was present before and its key does not
contain the pattern, so surviving entries keep their stored value and
timestamp unchanged. -/
theorem clearCache_exact_confirmed (c : CacheMap α) (pat k : String)
    (e : CEntry α) :
    (k, e) ∈ clearCache c pat ↔ ((k, e) ∈ c ∧ hasSubstr k pat = false) :=
  mem_clearCache

/-- C8, counterexample: two gaps.  (1) `createTherapist` — like every
therapist mutation — clears only the therapist controller's own cache
map; the route-level middleware map is untouched, so a therapist-list
page cached BEFORE the mutation (payload 42, stored at t = 1000) is
still served by the middleware 100 ms after the mutation, within its
TTL.  (2) `batchUpdatePatients` (and `createPatient`) clear only the
keys containing "patients", so a `patient_p1` detail entry cached before
a batch update of p1 (payload 9, stored at t = 1000) is still served
100 ms afterwards, within its 5-minute TTL.  Both contradict "no cached
page produced before the mutation is served afterwards within its TTL". -/
theorem middleware_cache_not_invalidated_cex :
    (therapistMutationCacheEffect cachesBefore).mwCache = cachesBefore.mwCache ∧
    cacheGet (therapistMutationCacheEffect cachesBefore).mwCache
        "/api/therapists_q" 1100 therapistsListRouteTTL = some 42 ∧
    1100 - 1000 < therapistsListRouteTTL ∧
    cacheGet (patientsBroadCacheEffect patientCachesBefore).patientCache
        "patient_p1" 1100 CACHE_TTL = some 9 ∧
    cacheGet patientCachesBefore.patientCache "patient_p1" 1000 CACHE_TTL
      = some 9 ∧
    1100 - 1000 < CACHE_TTL := by
  refine ⟨rfl, by decide, by decide, by decide, by decide, by decide⟩

/-- C8, amended: every mutating endpoint invalidates (part of) its OWN
controller's cache map — therapist mutations clear the therapist
controller map wholesale; the single-patient mutations (update, delete,
assign-therapist, flag, documents) remove the patient controller map's
keys containing "patient_<id>" or "patients"; `createPatient` and
`batchUpdatePatients` remove only the keys containing "patients", so
cached "patient_<id>" detail entries survive a batch update within their
TTL — and no mutation touches the route-level cache middleware map,
which can keep serving pre-mutation responses until its TTL lapses. -/
theorem mutation_invalidation_amended (s : AppCaches) (pid k : String)
    (e : CEntry Nat) :
    (therapistMutationCacheEffect s).therapistCache = [] ∧
    (therapistMutationCacheEffect s).mwCache = s.mwCache ∧
    (patientMutationCacheEffect pid s).mwCache = s.mwCache ∧
    ((k, e) ∈ (patientMutationCacheEffect pid s).patientCache ↔
      ((k, e) ∈ s.patientCache ∧
       hasSubstr k ("patient_" ++ pid) = false ∧
       hasSubstr k "patients" = false)) ∧
    (patientsBroadCacheEffect s).mwCache = s.mwCache ∧
    ((k, e) ∈ (patientsBroadCacheEffect s).patientCache ↔
      ((k, e) ∈ s.patientCache ∧ hasSubstr k "patients" = false)) := by
  refine ⟨rfl, rfl, rfl, ?_, rfl, ?_⟩
  · show (k, e) ∈ clearCache (clearCache s.patientCache ("patient_" ++ pid))
        "patients" ↔ _
    rw [mem_clearCache, mem_clearCache]
    tauto
  · show (k, e) ∈ clearCache s.patientCache "patients" ↔ _
    exact mem_clearCache

/-- C9, confirmed: `flagPatient` suppresses duplicates on the stored
flags list — re-invoking with a flag already present is a no-op, a flag
not yet present ends up stored exactly once, and two distinct new flags
end up both present in insertion order. -/
theorem flagPatient_idempotent_confirmed (l : List String) (f g : String) :
    flagPatientFlags (flagPatientFlags l f) f = flagPatientFlags l f ∧
    (f ∉ l → (flagPatientFlags l f).count f = 1) ∧
    (f ∉ l → g ∉ l → g ≠ f →
      flagPatientFlags (flagPatientFlags l f) g = l ++ [f, g]) := by
  refine ⟨?_, ?_, ?_⟩
  · by_cases h : f ∈ l <;> simp [flagPatientFlags, h]
  · intro h
    rw [flagPatientFlags, if_neg h, List.count_append]
    rw [List.count_eq_zero.mpr h]
    simp
  · intro hf hg hgf
    have h1 : flagPatientFlags l f = l ++ [f] := by
      rw [flagPatientFlags, if_neg hf]
    rw [h1, flagPatientFlags, if_neg (by simp [List.mem_append, hg, hgf]),
      List.append_assoc]
    rfl

/-- C9, witness for `flagPatient_idempotent_confirmed`. -/
theorem flagPatient_idempotent_confirmed_witness :
    (("a" : String) ∉ ([] : List String) ∧ ("b" : String) ∉ ([] : List String) ∧
      ("b" : String) ≠ "a") ∧
    (flagPatientFlags [] "a").count "a" = 1 ∧
    flagPatientFlags (flagPatientFlags [] "a") "b" = ["a", "b"] := by
  have h := flagPatient_idempotent_confirmed [] "a" "b"
  refine ⟨⟨by decide, by decide, by decide⟩, h.2.1 (by decide), ?_⟩
  have h2 := h.2.2 (by decide) (by decide) (by decide)
  simpa using h2

/-- C10, counterexample: the claim says a call whose supplied fields all
equal the stored values issues no write.  The admin-only fields
(`assigned_therapist`, `flags`, `documents`) are added to the update with
NO comparison, so resupplying the stored flags value verbatim still
issues a write and bumps the persisted `updatedAt`. -/
theorem updatePatient_admin_field_write_cex :
    bFlagsSame.flags = some dFlagged.flags ∧
    (updatePatient dFlagged bFlagsSame 999).1 ≠ dFlagged ∧
    (updatePatient dFlagged bFlagsSame 999).1.updatedAt = 999 ∧
    dFlagged.updatedAt = 5 := by
  refine ⟨by decide, by decide, by decide, by decide⟩

/-- C10, amended: when every SUPPLIED field is one of the six compared
fields (name, email, age, gender, concerns, emergencyContact) and equals
the stored value, no write is issued — the persisted record, including
its `updatedAt`, is returned unchanged — while the response body still
reports the freshly computed `updatedAt`/`updated_at`, so the response
can disagree with the persisted record; supplying any of the admin-only
fields issues a write even when the value is unchanged (see the
counterexample). -/
theorem updatePatient_noop_amended (d : PatientDocF) (b : UpdateBody) (now : Nat)
    (hn : b.name = none ∨ b.name = some d.name)
    (he : b.email = none ∨ b.email = some d.email)
    (ha : b.age = none ∨ b.age = some d.age)
    (hg : b.gender = none ∨ b.gender = some d.gender)
    (hc : b.concerns = none ∨ b.concerns = some d.concerns)
    (hec : b.emergencyContact = none ∨ b.emergencyContact = some d.emergencyContact)
    (hat : b.assigned_therapist = none) (hf : b.flags = none)
    (hd : b.documents = none) :
    (updatePatient d b now).1 = d ∧ (updatePatient d b now).2 = now := by
  have hiss : updateIssued d b = false := by
    rcases hn with hn | hn <;> rcases he with he | he <;> rcases ha with ha | ha <;>
      rcases hg with hg | hg <;> rcases hc with hc | hc <;> rcases hec with hec | hec <;>
        simp [updateIssued, hn, he, ha, hg, hc, hec, hat, hf, hd]
  exact ⟨by simp [updatePatient, hiss], rfl⟩

/-- C10, witness for `updatePatient_noop_amended`: resupplying the stored
name leaves the record untouched while the response reports the fresh
timestamp 999 (the stored one is 5). -/
theorem updatePatient_noop_amended_witness :
    (updatePatient d0 bodySame 999).1 = d0 ∧ (updatePatient d0 bodySame 999).2 = 999 :=
  updatePatient_noop_amended d0 bodySame 999 (Or.inr rfl) (Or.inl rfl)
    (Or.inl rfl) (Or.inl rfl) (Or.inl rfl) (Or.inl rfl) rfl rfl rfl
